import Mathlib

/-!
Verification of the open-responses-proxy orchestrator against its
natural-language specification.

The definitions below are a shallow embedding of the TypeScript source:

* the streaming orchestrator `streamResponse` (src orchestrator module:
  `streamResponse`, `ensureTextItemOpened`, `collectOutputItems`,
  `persistResponse`, `persistPartialOutput`),
* the persistence-gateway row semantics (`persistResponse` upsert,
  the status-guarded partial-output update, the cancel endpoint),
* the conversation assembler (`buildInputItems`),
* the request validation (`ResponsesRequestSchema`) and the mode dispatch
  of `runResponse`.

Modelling conventions:
* JS strings become `String`; status values and event types are kept as the
  exact string literals used by the source.
* `newId(prefix)` (crypto.randomUUID) is replaced by a deterministic
  counter-based supply threaded through the state; claims do not depend on
  id randomness.
* The SSE writer never fails in the model (the source swallows write
  failures); every `write(...)` appends to the `wire` list.
* The debounced checkpoint timer is modelled by the `timerPending` flag:
  `schedulePartialUpdate` arms it, `cancelPartialUpdate` clears it.  The
  timer callback itself fires on a real-time clock and is therefore not
  part of the sequential event fold; the status-guarded write it would
  perform is modelled separately at the row level.
* The provider stream is a list of events followed by one of three
  endings: natural exhaustion, an abort error, or any other error.
-/

-- ---------------------------------------------------------------------------
-- Output items and usage (src response module)
-- ---------------------------------------------------------------------------

/-- Output items as persisted and emitted.  A message's content is the list
of its output_text parts' texts (annotations are always the empty list in
the source and are omitted). -/
inductive OutputItem where
  | message (id : String) (status : String) (content : List String)
  | functionCall (id : String) (callId : String) (status : String)
      (name : String) (args : String)
  | reasoning (id : String) (summaryText : String) (status : String)
  deriving DecidableEq, Repr

/-- Status field of an output item. -/
def OutputItem.statusOf : OutputItem → String
  | .message _ s _ => s
  | .functionCall _ _ s _ _ => s
  | .reasoning _ _ s => s

/-- Whether an output item is message-typed. -/
def OutputItem.isMessage : OutputItem → Bool
  | .message _ _ _ => true
  | _ => false

/-- Usage totals as built by the orchestrator (`total = input + output`). -/
structure Usage where
  inputTokens : Nat
  outputTokens : Nat
  totalTokens : Nat
  cachedTokens : Option Nat := none
  deriving DecidableEq, Repr

/-- Usage as reported by a provider adapter. -/
structure ProviderUsage where
  inputTokens : Nat
  outputTokens : Nat
  cacheReadTokens : Option Nat := none
  deriving DecidableEq, Repr

/-- The usage projection done in the `message_done` case of the source. -/
def mkUsage (u : ProviderUsage) : Usage :=
  { inputTokens := u.inputTokens, outputTokens := u.outputTokens,
    totalTokens := u.inputTokens + u.outputTokens,
    cachedTokens := u.cacheReadTokens }

-- ---------------------------------------------------------------------------
-- Provider events (src providers/types.ts)
-- ---------------------------------------------------------------------------

/-- Normalised provider stream events.  The orchestrator ignores the
`outputIndex` hints carried by tool events, but they are kept for
faithfulness to the source type. -/
inductive ProviderEvent where
  | textDelta (delta : String)
  | toolCallStart (callId : String) (name : String) (outputIndex : Nat)
  | toolCallDelta (callId : String) (argumentsDelta : String)
  | toolCallDone (callId : String) (args : String) (outputIndex : Nat)
  | thinkingDelta (delta : String)
  | thinkingDone (text : String)
  | messageDone (stopReason : String) (usage : ProviderUsage)
  deriving DecidableEq, Repr

def ProviderEvent.isTextDelta : ProviderEvent → Bool
  | .textDelta _ => true
  | _ => false

def ProviderEvent.isToolStart : ProviderEvent → Bool
  | .toolCallStart _ _ _ => true
  | _ => false

-- ---------------------------------------------------------------------------
-- Wire events (the SSE payloads written by the orchestrator)
-- ---------------------------------------------------------------------------

/-- One typed SSE payload.  Fields that a given event type does not carry
are `none`; in particular `seq` is `none` exactly when the JSON payload has
no `sequence_number` member. -/
structure WireEvent where
  etype : String
  seq : Option Nat := none
  outputIndex : Option Nat := none
  itemId : Option String := none
  contentIndex : Option Nat := none
  delta : Option String := none
  text : Option String := none
  partText : Option String := none
  item : Option OutputItem := none
  respId : Option String := none
  respStatus : Option String := none
  respOutput : Option (List OutputItem) := none
  respUsage : Option Usage := none
  errType : Option String := none
  errMessage : Option String := none
  deriving DecidableEq, Repr

/-- An element of the SSE byte stream: a typed event or the final
`data: [DONE]` sentinel. -/
inductive WireItem where
  | ev (e : WireEvent)
  | doneMark
  deriving DecidableEq, Repr

-- ---------------------------------------------------------------------------
-- Database writes issued by the streaming path
-- ---------------------------------------------------------------------------

/-- Error payload persisted into `error_json`. -/
structure ErrPayload where
  etype : String
  message : String
  deriving DecidableEq, Repr

/-- A database write issued by the orchestrator: the `persistResponse`
upsert with the fields its ON CONFLICT clause sets. -/
inductive DbWrite where
  | upsert (id : String) (status : String) (outputs : List OutputItem)
      (usage : Option Usage) (err : Option ErrPayload)
      (incompleteReason : Option String)
  deriving DecidableEq, Repr

-- ---------------------------------------------------------------------------
-- Streaming orchestrator state (the accumulators of streamResponse)
-- ---------------------------------------------------------------------------

/-- Function-call accumulator record (`functionCalls` array entries). -/
structure FunctionCallAcc where
  id : String
  callId : String
  name : String
  arguments : String
  outputIndex : Nat
  done : Bool
  deriving DecidableEq, Repr

/-- The per-request mutable state of `streamResponse`'s start closure,
together with the observable wire output and database writes.
`messageOutputIndex = none` models the source's `-1` (unset). -/
structure StreamState where
  sequence : Nat := 0
  accumulatedText : String := ""
  accumulatedThinking : String := ""
  functionCalls : List FunctionCallAcc := []
  nextOutputIndex : Nat := 0
  responseUsage : Option Usage := none
  textItemOpened : Bool := false
  messageOutputIndex : Option Nat := none
  timerPending : Bool := false
  idCounter : Nat := 0
  wire : List WireItem := []
  dbWrites : List DbWrite := []
  deriving DecidableEq, Repr

/-- Per-stream constants: the `store` flag and the ids allocated before the
stream starts. -/
structure StreamCtx where
  store : Bool
  responseId : String
  messageId : String
  deriving DecidableEq, Repr

/-- Deterministic stand-in for `newId(prefix)` (crypto.randomUUID). -/
def newId (pre : String) (n : Nat) : String := pre ++ toString n

/-- `collectOutputItems` of the source: message item (status hardcoded to
"completed" by `createTextMessageItem`, id overridden to the stream's
message id), then function calls (completed iff done, else incomplete),
with a reasoning item unshifted to the head when thinking accumulated.
The reasoning id uses the current counter (fresh per call in the source). -/
def collectOutputItems (st : StreamState) (messageId : String) : List OutputItem :=
  let base : List OutputItem :=
    (if st.textItemOpened then [OutputItem.message messageId "completed" [st.accumulatedText]] else []) ++
    st.functionCalls.map (fun fc =>
      OutputItem.functionCall fc.id fc.callId (if fc.done then "completed" else "incomplete") fc.name fc.arguments)
  if st.accumulatedThinking = "" then base
  else OutputItem.reasoning (newId "rs_" st.idCounter) st.accumulatedThinking "completed" :: base

/-- `ensureTextItemOpened`: on first call, allocate the message output
index and emit `output_item.added(message, in_progress)` then
`content_part.added(output_text, "")`. -/
def ensureTextItemOpened (ctx : StreamCtx) (st : StreamState) : StreamState :=
  if st.textItemOpened then st
  else
    let mIdx := st.nextOutputIndex
    { st with
      textItemOpened := true
      messageOutputIndex := some mIdx
      nextOutputIndex := mIdx + 1
      sequence := st.sequence + 2
      wire := st.wire ++
        [.ev { etype := "response.output_item.added", seq := some (st.sequence + 1),
               outputIndex := some mIdx,
               item := some (.message ctx.messageId "in_progress" []) },
         .ev { etype := "response.content_part.added", seq := some (st.sequence + 2),
               itemId := some ctx.messageId, outputIndex := some mIdx,
               contentIndex := some 0, partText := some "" }] }

/-- The `text_delta` case: lazily open the item, accumulate, emit the
delta, and (when storing) arm the debounced checkpoint timer. -/
def stepTextDelta (ctx : StreamCtx) (st : StreamState) (d : String) : StreamState :=
  let st1 := ensureTextItemOpened ctx st
  let st2 := { st1 with accumulatedText := st1.accumulatedText ++ d }
  let st3 := { st2 with
    sequence := st2.sequence + 1
    wire := st2.wire ++
      [.ev { etype := "response.output_text.delta", seq := some (st2.sequence + 1),
             itemId := some ctx.messageId, outputIndex := st2.messageOutputIndex,
             contentIndex := some 0, delta := some d }] }
  if ctx.store then { st3 with timerPending := true } else st3

/-- The `tool_call_start` case: allocate the next output index and a fresh
fc id, record the call, emit `output_item.added(function_call, in_progress)`. -/
def stepToolStart (st : StreamState) (cid nm : String) : StreamState :=
  let fcId := newId "fc_" st.idCounter
  let idx := st.nextOutputIndex
  { st with
    idCounter := st.idCounter + 1
    nextOutputIndex := idx + 1
    functionCalls := st.functionCalls ++
      [{ id := fcId, callId := cid, name := nm, arguments := "", outputIndex := idx, done := false }]
    sequence := st.sequence + 1
    wire := st.wire ++
      [.ev { etype := "response.output_item.added", seq := some (st.sequence + 1),
             outputIndex := some idx,
             item := some (.functionCall fcId cid "in_progress" nm "") }] }

/-- Replace the first function-call record with the given call id. -/
def updateFirstFc (l : List FunctionCallAcc) (cid : String)
    (f : FunctionCallAcc → FunctionCallAcc) : List FunctionCallAcc :=
  match l with
  | [] => []
  | fc :: rest => if fc.callId = cid then f fc :: rest else fc :: updateFirstFc rest cid f

/-- The `tool_call_delta` case: append to the recorded arguments buffer of
the matching call; nothing is emitted. -/
def stepToolDelta (st : StreamState) (cid d : String) : StreamState :=
  match st.functionCalls.find? (fun f => f.callId == cid) with
  | none => st
  | some _ =>
    { st with functionCalls :=
        updateFirstFc st.functionCalls cid (fun f => { f with arguments := f.arguments ++ d }) }

/-- The `tool_call_done` case: overwrite the buffer, mark done, emit
`output_item.done(function_call, completed)` at the recorded index. -/
def stepToolDone (st : StreamState) (cid args : String) : StreamState :=
  match st.functionCalls.find? (fun f => f.callId == cid) with
  | none => st
  | some fc =>
    { st with
      functionCalls := updateFirstFc st.functionCalls cid
        (fun f => { f with arguments := args, done := true })
      sequence := st.sequence + 1
      wire := st.wire ++
        [.ev { etype := "response.output_item.done", seq := some (st.sequence + 1),
               outputIndex := some fc.outputIndex,
               item := some (.functionCall fc.id fc.callId "completed" fc.name args) }] }

/-- The `message_done` case: set usage; if the text item is open, emit
`output_text.done`, `content_part.done`, `output_item.done(message,
completed)`; then emit `response.completed` with the full response object. -/
def stepMessageDone (ctx : StreamCtx) (st : StreamState) (u : ProviderUsage) : StreamState :=
  let st0 := { st with responseUsage := some (mkUsage u) }
  let st1 :=
    if st0.textItemOpened then
      { st0 with
        sequence := st0.sequence + 3
        wire := st0.wire ++
          [.ev { etype := "response.output_text.done", seq := some (st0.sequence + 1),
                 itemId := some ctx.messageId, outputIndex := st0.messageOutputIndex,
                 contentIndex := some 0, text := some st0.accumulatedText },
           .ev { etype := "response.content_part.done", seq := some (st0.sequence + 2),
                 itemId := some ctx.messageId, outputIndex := st0.messageOutputIndex,
                 contentIndex := some 0, partText := some st0.accumulatedText },
           .ev { etype := "response.output_item.done", seq := some (st0.sequence + 3),
                 outputIndex := st0.messageOutputIndex,
                 item := some (.message ctx.messageId "completed" [st0.accumulatedText]) }] }
    else st0
  { st1 with
    sequence := st1.sequence + 1
    wire := st1.wire ++
      [.ev { etype := "response.completed", seq := some (st1.sequence + 1),
             respId := some ctx.responseId, respStatus := some "completed",
             respOutput := some (collectOutputItems st1 ctx.messageId),
             respUsage := st1.responseUsage }] }

/-- One iteration of the provider-event switch in `streamResponse`. -/
def step (ctx : StreamCtx) (st : StreamState) (e : ProviderEvent) : StreamState :=
  match e with
  | .textDelta d => stepTextDelta ctx st d
  | .toolCallStart cid nm _ => stepToolStart st cid nm
  | .toolCallDelta cid d => stepToolDelta st cid d
  | .toolCallDone cid args _ => stepToolDone st cid args
  | .thinkingDelta d => { st with accumulatedThinking := st.accumulatedThinking ++ d }
  | .thinkingDone t => { st with accumulatedThinking := t }
  | .messageDone _ u => stepMessageDone ctx st u

/-- The initial state: when storing, the `in_progress` row is inserted
before the first event. -/
def initialState (ctx : StreamCtx) : StreamState :=
  if ctx.store then
    { dbWrites := [.upsert ctx.responseId "in_progress" [] none none none] }
  else {}

/-- The very first typed event of every stream. -/
def inProgressEvent (ctx : StreamCtx) : WireEvent :=
  { etype := "response.in_progress", seq := some 1,
    respId := some ctx.responseId, respStatus := some "in_progress" }

/-- State after step 0 and the `response.in_progress` emission. -/
def afterInProgress (ctx : StreamCtx) : StreamState :=
  { initialState ctx with sequence := 1, wire := [.ev (inProgressEvent ctx)] }

/-- Fold the provider events through the switch. -/
def runEvents (ctx : StreamCtx) (events : List ProviderEvent) : StreamState :=
  events.foldl (step ctx) (afterInProgress ctx)

/-- How the provider stream ends. -/
inductive StreamEnd where
  | natural
  | abortError
  | otherError (msg : String)
  deriving DecidableEq, Repr

/-- Natural end of the loop: cancel the checkpoint timer, emit `[DONE]`,
and when storing persist the completed row. -/
def finishStream (ctx : StreamCtx) (st : StreamState) : StreamState :=
  let st1 := { st with timerPending := false, wire := st.wire ++ [.doneMark] }
  if ctx.store then
    { st1 with dbWrites := st1.dbWrites ++
        [.upsert ctx.responseId "completed" (collectOutputItems st ctx.messageId)
          st.responseUsage none none] }
  else st1

/-- Abort branch: cancel the checkpoint timer, persist the incomplete row
with the accumulated output and `incomplete_details = interrupted`, then
emit `[DONE]` with no further typed events. -/
def abortStream (ctx : StreamCtx) (st : StreamState) : StreamState :=
  let st1 := { st with timerPending := false }
  let st2 :=
    if ctx.store then
      { st1 with dbWrites := st1.dbWrites ++
          [.upsert ctx.responseId "incomplete" (collectOutputItems st ctx.messageId)
            st.responseUsage none (some "interrupted")] }
    else st1
  { st2 with wire := st2.wire ++ [.doneMark] }

/-- Non-abort error branch: emit the `error` event (whose payload carries
no sequence_number), then `response.failed`, then `[DONE]`; when storing,
persist the failed row with empty output. -/
def failStream (ctx : StreamCtx) (st : StreamState) (msg : String) : StreamState :=
  let st1 := { st with
    timerPending := false
    sequence := st.sequence + 1
    wire := st.wire ++
      [.ev { etype := "error", errType := some "server_error", errMessage := some msg },
       .ev { etype := "response.failed", seq := some (st.sequence + 1),
             respId := some ctx.responseId, respStatus := some "failed",
             respOutput := some (collectOutputItems st ctx.messageId),
             respUsage := st.responseUsage,
             errType := some "server_error", errMessage := some msg },
       .doneMark] }
  if ctx.store then
    { st1 with dbWrites := st1.dbWrites ++
        [.upsert ctx.responseId "failed" [] none
          (some { etype := "server_error", message := msg }) none] }
  else st1

/-- The whole streaming path: initial persist, `response.in_progress`, the
event loop, then the ending branch. -/
def streamResponse (ctx : StreamCtx) (events : List ProviderEvent)
    (ending : StreamEnd) : StreamState :=
  let st := runEvents ctx events
  match ending with
  | .natural => finishStream ctx st
  | .abortError => abortStream ctx st
  | .otherError msg => failStream ctx st msg

-- ---------------------------------------------------------------------------
-- Persistence gateway: row-level semantics (src orchestrator + cancel route)
-- ---------------------------------------------------------------------------

/-- The stored response row, restricted to the columns the writes below
touch.  `incompleteDetailsJson` holds the `reason` string. -/
structure DbRow where
  id : String
  status : String
  outputItemsJson : List OutputItem
  usageJson : Option Usage := none
  errorJson : Option ErrPayload := none
  incompleteDetailsJson : Option String := none
  store : Bool := true
  createdAt : Nat := 0
  completedAt : Option Nat := none
  cancelledAt : Option Nat := none
  deriving DecidableEq, Repr

/-- Row semantics of the source's `persistResponse`: an INSERT ... ON
CONFLICT DO UPDATE.  On conflict it unconditionally sets status, outputs,
usage, error, incomplete details and completed_at — there is no status
guard on this path. -/
def persistResponse (existing : Option DbRow) (id status : String)
    (outputs : List OutputItem) (usage : Option Usage) (err : Option ErrPayload)
    (increason : Option String) (createdAt now : Nat) : DbRow :=
  match existing with
  | none =>
      { id := id, status := status, outputItemsJson := outputs, usageJson := usage,
        errorJson := err, incompleteDetailsJson := increason, store := true,
        createdAt := createdAt,
        completedAt := if status = "completed" then some now else none,
        cancelledAt := none }
  | some r =>
      { r with
        status := status, outputItemsJson := outputs, usageJson := usage,
        errorJson := err, incompleteDetailsJson := increason,
        completedAt := if status = "completed" then some now else none }

/-- Row semantics of the source's persistPartialOutput:
`UPDATE responses SET output_items = ? WHERE id = ? AND status = 'in_progress'`.
A no-op on any row not currently in progress. -/
def persistGuardedOutput (existing : Option DbRow) (id : String)
    (outputs : List OutputItem) : Option DbRow :=
  existing.map fun r =>
    if r.id = id ∧ r.status = "in_progress" then { r with outputItemsJson := outputs }
    else r

/-- Apply one of the orchestrator's recorded writes to a row. -/
def applyDbWrite (existing : Option DbRow) (w : DbWrite) (createdAt now : Nat) :
    Option DbRow :=
  match w with
  | .upsert id status outputs usage err increason =>
      some (persistResponse existing id status outputs usage err increason createdAt now)

/-- Result of the cancel endpoint, beside the row state. -/
inductive CancelOutcome where
  | errResponse (httpStatus : Nat) (errType : String)
  | ok (row : DbRow)
  deriving DecidableEq, Repr

/-- The POST /v1/responses/[id]/cancel handler: 404 when absent, 409 when
not stored or not in `queued`/`in_progress`, otherwise set status to
`cancelled` and stamp `cancelled_at`. -/
def cancelPOST (existing : Option DbRow) (now : Nat) : CancelOutcome × Option DbRow :=
  match existing with
  | none => (.errResponse 404 "not_found", none)
  | some r =>
      if r.store = false then (.errResponse 409 "conflict", some r)
      else if r.status = "queued" ∨ r.status = "in_progress" then
        let r' := { r with status := "cancelled", cancelledAt := some now }
        (.ok r', some r')
      else (.errResponse 409 "conflict", some r)

-- ---------------------------------------------------------------------------
-- Conversation assembler: buildInputItems (src orchestrator)
-- ---------------------------------------------------------------------------

/-- Items as they appear in the normalized input list.  `storedItem` stands
for an opaque prior-turn item loaded from the database (e.g. an output
message carrying its id); the assembler only ever inspects the `type` and
`id` members of such items. -/
inductive InItem where
  | message (role : String) (content : String)
  | functionCall (callId : String) (name : String) (args : String)
  | functionCallOutput (callId : String) (output : String)
  | itemReference (id : String)
  | storedItem (id : Option String) (tag : Nat)
  deriving DecidableEq, Repr

/-- Whether an item is an `item_reference` entry. -/
def InItem.isItemRef : InItem → Bool
  | .itemReference _ => true
  | _ => false

/-- The `id` member consulted by the item_reference lookup. -/
def InItem.idOf : InItem → Option String
  | .itemReference i => some i
  | .storedItem i _ => i
  | _ => none

/-- A request's `input`: a single string or an ordered item list. -/
inductive ReqInput where
  | str (s : String)
  | items (l : List InItem)
  deriving DecidableEq, Repr

/-- The slice of the request the assembler reads. -/
structure AsmRequest where
  input : ReqInput
  previous_response_id : Option String := none
  deriving DecidableEq, Repr

/-- The slice of a stored row the assembler reads.  `status` is carried to
document that the assembler never consults it. -/
structure PrevRow where
  store : Bool
  status : String
  inputItemsJson : List InItem
  outputItemsJson : List InItem
  deriving DecidableEq, Repr

/-- The error responses thrown by `buildInputItems`. -/
structure AsmError where
  httpStatus : Nat
  errType : String
  param : String
  deriving DecidableEq, Repr

/-- One iteration of the array-input loop: item_reference entries are
looked up by id in the already-assembled list but, found or not, are never
pushed; every other entry is appended. -/
def pushInputItem (acc : List InItem) (it : InItem) : List InItem :=
  match it with
  | .itemReference refId =>
      let _found := acc.find? (fun i => i.idOf == some refId)
      acc
  | _ => acc ++ [it]

/-- The normalization of the current request's input appended onto the
seed: a non-empty string becomes one user message; an array is folded with
`pushInputItem`. -/
def appendCurrentInput (seed : List InItem) (input : ReqInput) : List InItem :=
  match input with
  | .str s => if s ≠ "" then seed ++ [.message "user" s] else seed
  | .items arr => arr.foldl pushInputItem seed

/-- `buildInputItems`: resolve `previous_response_id` (404 when absent,
400 when the stored row has store=false — the row's status is never
checked), seed with stored input items then stored output items, then
append the normalized current input. -/
def buildInputItems (lookup : String → Option PrevRow) (req : AsmRequest) :
    Except AsmError (List InItem) :=
  match req.previous_response_id with
  | none => .ok (appendCurrentInput [] req.input)
  | some pid =>
      match lookup pid with
      | none =>
          .error { httpStatus := 404, errType := "not_found",
                   param := "previous_response_id" }
      | some row =>
          if row.store = false then
            .error { httpStatus := 400, errType := "invalid_request_error",
                     param := "previous_response_id" }
          else
            .ok (appendCurrentInput (row.inputItemsJson ++ row.outputItemsJson) req.input)

/-- The normalized contribution of the current request's input, stated
independently of the seed. -/
def normCurrent : ReqInput → List InItem
  | .str s => if s ≠ "" then [.message "user" s] else []
  | .items arr => arr.filter (fun it => !it.isItemRef)

-- ---------------------------------------------------------------------------
-- Request validation (src schema ResponsesRequestSchema) and mode dispatch
-- ---------------------------------------------------------------------------

/-- The raw request fields relevant to validation; `none` stands for an
absent (or null) optional member. -/
structure RawRequest where
  model : String
  temperature : Option Rat := none
  top_p : Option Rat := none
  max_output_tokens : Option Int := none
  stream : Option Bool := none
  store : Option Bool := none
  background : Option Bool := none
  deriving DecidableEq, Repr

/-- The parsed request after defaulting. -/
structure ParsedRequest where
  model : String
  temperature : Option Rat
  top_p : Option Rat
  max_output_tokens : Option Int
  stream : Bool
  store : Bool
  background : Bool
  deriving DecidableEq, Repr

/-- The numeric refinements of ResponsesRequestSchema:
temperature in [0,2], top_p in [0,1], max_output_tokens a positive
integer.  The schema contains no constraint tying background to store. -/
def validateRequest (r : RawRequest) : Option ParsedRequest :=
  let tOk := match r.temperature with
    | none => true
    | some x => decide (0 ≤ x ∧ x ≤ 2)
  let pOk := match r.top_p with
    | none => true
    | some x => decide (0 ≤ x ∧ x ≤ 1)
  let mOk := match r.max_output_tokens with
    | none => true
    | some n => decide (0 < n)
  if tOk && pOk && mOk then
    some { model := r.model, temperature := r.temperature, top_p := r.top_p,
           max_output_tokens := r.max_output_tokens,
           stream := r.stream.getD false, store := r.store.getD true,
           background := r.background.getD false }
  else none

/-- The three execution modes of `runResponse`. -/
inductive RunMode where
  | background
  | streaming
  | jsonOneShot
  deriving DecidableEq, Repr

/-- The dispatch at the end of `runResponse`: background mode only when
`background && store`; otherwise streaming or the one-shot JSON path. -/
def dispatchMode (r : ParsedRequest) : RunMode :=
  if r.background && r.store then .background
  else if r.stream then .streaming
  else .jsonOneShot

-- ---------------------------------------------------------------------------
-- Observation functions on the wire used by the claims
-- ---------------------------------------------------------------------------

/-- The sequence_number of a wire element, when present. -/
def seqOfItem : WireItem → Option Nat
  | .ev e => e.seq
  | .doneMark => none

/-- The sequence numbers carried by a wire, in emission order. -/
def seqsOf (w : List WireItem) : List Nat := w.filterMap seqOfItem

/-- Sequence discipline: the carried numbers are strictly increasing and
bounded by the current counter value. -/
def SeqOk (w : List WireItem) (s : Nat) : Prop :=
  (seqsOf w).Pairwise (· < ·) ∧ ∀ n ∈ seqsOf w, n ≤ s

/-- Every typed event except the error event carries a sequence_number. -/
def seqPresentB : WireItem → Bool
  | .ev e => e.etype == "error" || e.seq.isSome
  | .doneMark => true

/-- An output_item.added event always announces its item as in_progress. -/
def addedInProgressB : WireItem → Bool
  | .ev e =>
      if e.etype == "response.output_item.added" then
        match e.item with
        | some it => it.statusOf == "in_progress"
        | none => false
      else true
  | .doneMark => true

/-- An output_item.done event always carries its item as completed. -/
def doneCompletedB : WireItem → Bool
  | .ev e =>
      if e.etype == "response.output_item.done" then
        match e.item with
        | some it => it.statusOf == "completed"
        | none => false
      else true
  | .doneMark => true

/-- Message-related wire traffic: any content_part or output_text event,
or any event whose item is message-typed. -/
def isMsgWireEvent : WireItem → Bool
  | .ev e =>
      e.etype == "response.content_part.added" || e.etype == "response.content_part.done" ||
      e.etype == "response.output_text.delta" || e.etype == "response.output_text.done" ||
      (match e.item with | some it => it.isMessage | none => false)
  | .doneMark => false

/-- The output_index announced by an output_item.added event. -/
def addedIdxOf : WireItem → Option (Option Nat)
  | .ev e => if e.etype = "response.output_item.added" then some e.outputIndex else none
  | .doneMark => none

/-- The output indices of the item-announcing events, in emission order. -/
def addedIndices (w : List WireItem) : List (Option Nat) := w.filterMap addedIdxOf

/-- Index bookkeeping: the announced indices so far are exactly
0, 1, ..., nextOutputIndex - 1 in order. -/
def AddedOk (st : StreamState) : Prop :=
  addedIndices st.wire = (List.range st.nextOutputIndex).map some

/-- State before any text delta or tool call has been seen. -/
def PreClean (st : StreamState) : Prop :=
  st.textItemOpened = false ∧ st.functionCalls = [] ∧
  st.nextOutputIndex = 0 ∧ st.messageOutputIndex = none

/-- State after text opened first (at index 0) and before any tool call. -/
def MidClean (st : StreamState) : Prop :=
  st.textItemOpened = true ∧ st.functionCalls = [] ∧
  st.nextOutputIndex = 1 ∧ st.messageOutputIndex = some 0

-- ---------------------------------------------------------------------------
-- General lemmas about one step of the event loop
-- ---------------------------------------------------------------------------

theorem seqOk_extend {w : List WireItem} {s : Nat} {t : List WireItem} {s' : Nat}
    (h : SeqOk w s)
    (ht : (seqsOf t).Pairwise (· < ·))
    (hbound : ∀ n ∈ seqsOf t, s < n ∧ n ≤ s') (hle : s ≤ s') :
    SeqOk (w ++ t) s' := by
  constructor
  · rw [seqsOf, List.filterMap_append]
    exact List.pairwise_append.mpr
      ⟨h.1, ht, fun a ha b hb => lt_of_le_of_lt (h.2 a ha) (hbound b hb).1⟩
  · intro n hn
    rw [seqsOf, List.filterMap_append] at hn
    rcases List.mem_append.mp hn with h1 | h2
    · exact le_trans (h.2 n h1) hle
    · exact (hbound n h2).2

theorem seqOk_snoc_done {w : List WireItem} {s : Nat} (h : SeqOk w s) :
    SeqOk (w ++ [.doneMark]) s :=
  seqOk_extend h (by simp [seqsOf, seqOfItem])
    (by intro n hn; simp [seqsOf, seqOfItem] at hn) le_rfl

theorem seqOk_snoc1 {w : List WireItem} {s : Nat} (h : SeqOk w s) (e : WireEvent)
    (he : e.seq = some (s + 1)) : SeqOk (w ++ [.ev e]) (s + 1) :=
  seqOk_extend h (by simp [seqsOf, seqOfItem, he])
    (by intro n hn; simp [seqsOf, seqOfItem, he] at hn; omega) (by omega)

theorem seqOk_snoc3 {w : List WireItem} {s : Nat} (h : SeqOk w s) (e1 e2 e3 : WireEvent)
    (h1 : e1.seq = some (s + 1)) (h2 : e2.seq = some (s + 2)) (h3 : e3.seq = some (s + 3)) :
    SeqOk (w ++ [.ev e1, .ev e2, .ev e3]) (s + 3) :=
  seqOk_extend h
    (by simp [seqsOf, seqOfItem, h1, h2, h3, List.pairwise_cons])
    (by intro n hn; simp [seqsOf, seqOfItem, h1, h2, h3] at hn; omega) (by omega)

theorem seqOk_snoc4 {w : List WireItem} {s : Nat} (h : SeqOk w s) (e1 e2 e3 e4 : WireEvent)
    (h1 : e1.seq = some (s + 1)) (h2 : e2.seq = some (s + 2)) (h3 : e3.seq = some (s + 3))
    (h4 : e4.seq = some (s + 4)) :
    SeqOk (w ++ [.ev e1, .ev e2, .ev e3, .ev e4]) (s + 4) :=
  seqOk_extend h
    (by simp [seqsOf, seqOfItem, h1, h2, h3, h4, List.pairwise_cons])
    (by intro n hn; simp [seqsOf, seqOfItem, h1, h2, h3, h4] at hn; omega) (by omega)

theorem seqOk_snoc_err {w : List WireItem} {s : Nat} (h : SeqOk w s) (e1 e2 : WireEvent)
    (h1 : e1.seq = none) (h2 : e2.seq = some (s + 1)) :
    SeqOk (w ++ [.ev e1, .ev e2, .doneMark]) (s + 1) :=
  seqOk_extend h (by simp [seqsOf, seqOfItem, h1, h2])
    (by intro n hn; simp [seqsOf, seqOfItem, h1, h2] at hn; omega) (by omega)

theorem step_seqOk (ctx : StreamCtx) (st : StreamState) (e : ProviderEvent)
    (h : SeqOk st.wire st.sequence) :
    SeqOk (step ctx st e).wire (step ctx st e).sequence := by
  cases e with
  | textDelta d =>
    cases ho : st.textItemOpened <;> cases hs : ctx.store <;>
      simp only [step, stepTextDelta, ensureTextItemOpened, ho, hs, Bool.false_eq_true,
        if_false, if_true, List.append_assoc, List.cons_append, List.nil_append] <;>
      first
        | exact seqOk_snoc1 h _ rfl
        | exact seqOk_snoc3 h _ _ _ rfl rfl rfl
  | toolCallStart cid nm n =>
    simp only [step, stepToolStart]
    exact seqOk_snoc1 h _ rfl
  | toolCallDelta cid d =>
    simp only [step, stepToolDelta]
    cases st.functionCalls.find? (fun f => f.callId == cid) <;> simpa using h
  | toolCallDone cid args n =>
    simp only [step, stepToolDone]
    cases st.functionCalls.find? (fun f => f.callId == cid) with
    | none => simpa using h
    | some fc => exact seqOk_snoc1 h _ rfl
  | thinkingDelta d => simpa [step] using h
  | thinkingDone t => simpa [step] using h
  | messageDone sr u =>
    cases ho : st.textItemOpened <;>
      simp only [step, stepMessageDone, ho, Bool.false_eq_true, if_false, if_true,
        List.append_assoc, List.cons_append, List.nil_append] <;>
      first
        | exact seqOk_snoc1 h _ rfl
        | exact seqOk_snoc4 h _ _ _ _ rfl rfl rfl rfl

/-- Wire-event well-formedness checked on every emitted element: the
sequence_number presence rule and the added/done status discipline. -/
def wireEventOkB (it : WireItem) : Bool :=
  seqPresentB it && addedInProgressB it && doneCompletedB it

theorem foldl_preserve {α β : Type} {P : β → Prop} (f : β → α → β)
    (h : ∀ b a, P b → P (f b a)) :
    ∀ (l : List α) (init : β), P init → P (l.foldl f init) := by
  intro l
  induction l with
  | nil => exact fun init h0 => h0
  | cons a t ih => exact fun init h0 => ih (f init a) (h init a h0)

theorem foldl_preserve_cond {α β : Type} {P : β → Prop} {c : α → Prop} (f : β → α → β)
    (h : ∀ b a, c a → P b → P (f b a)) :
    ∀ (l : List α), (∀ a ∈ l, c a) → ∀ init, P init → P (l.foldl f init) := by
  intro l
  induction l with
  | nil => exact fun _ init h0 => h0
  | cons a t ih =>
    intro hc init h0
    exact ih (fun x hx => hc x (List.mem_cons_of_mem a hx)) (f init a)
      (h init a (hc a (List.mem_cons_self a t)) h0)

theorem step_wire_mono (ctx : StreamCtx) (st : StreamState) (e : ProviderEvent) :
    ∀ it ∈ st.wire, it ∈ (step ctx st e).wire := by
  intro it hit
  cases e with
  | textDelta d =>
    cases ho : st.textItemOpened <;> cases hs : ctx.store <;>
      simp only [step, stepTextDelta, ensureTextItemOpened, ho, hs, Bool.false_eq_true,
        if_false, if_true, List.append_assoc, List.mem_append] <;>
      exact Or.inl hit
  | toolCallStart cid nm n =>
    simp only [step, stepToolStart, List.mem_append]
    exact Or.inl hit
  | toolCallDelta cid d =>
    simp only [step, stepToolDelta]
    cases st.functionCalls.find? (fun f => f.callId == cid) <;> simpa using hit
  | toolCallDone cid args n =>
    simp only [step, stepToolDone]
    cases st.functionCalls.find? (fun f => f.callId == cid) with
    | none => simpa using hit
    | some fc => simp only [List.mem_append]; exact Or.inl hit
  | thinkingDelta d => simpa [step] using hit
  | thinkingDone t => simpa [step] using hit
  | messageDone sr u =>
    cases ho : st.textItemOpened <;>
      simp only [step, stepMessageDone, ho, Bool.false_eq_true, if_false, if_true,
        List.append_assoc, List.mem_append] <;>
      exact Or.inl hit

theorem step_wireEventOk (ctx : StreamCtx) (st : StreamState) (e : ProviderEvent)
    (h : ∀ it ∈ st.wire, wireEventOkB it = true) :
    ∀ it ∈ (step ctx st e).wire, wireEventOkB it = true := by
  intro it hit
  cases e with
  | textDelta d =>
    cases ho : st.textItemOpened <;> cases hs : ctx.store <;>
      simp only [step, stepTextDelta, ensureTextItemOpened, ho, hs, Bool.false_eq_true,
        if_false, if_true, List.append_assoc, List.cons_append, List.nil_append] at hit <;>
      rcases List.mem_append.mp hit with h1 | h2 <;>
      first
        | exact h it h1
        | (simp only [List.mem_cons, List.not_mem_nil, or_false] at h2
           rcases h2 with rfl | rfl | rfl <;> rfl)
  | toolCallStart cid nm n =>
    simp only [step, stepToolStart] at hit
    rcases List.mem_append.mp hit with h1 | h2
    · exact h it h1
    · simp only [List.mem_cons, List.not_mem_nil, or_false] at h2
      subst h2; rfl
  | toolCallDelta cid d =>
    simp only [step, stepToolDelta] at hit
    revert hit
    cases st.functionCalls.find? (fun f => f.callId == cid) <;> intro hit <;>
      exact h it (by simpa using hit)
  | toolCallDone cid args n =>
    simp only [step, stepToolDone] at hit
    revert hit
    cases st.functionCalls.find? (fun f => f.callId == cid) with
    | none => intro hit; exact h it (by simpa using hit)
    | some fc =>
      intro hit
      rcases List.mem_append.mp hit with h1 | h2
      · exact h it h1
      · simp only [List.mem_cons, List.not_mem_nil, or_false] at h2
        subst h2; rfl
  | thinkingDelta d => exact h it (by simpa [step] using hit)
  | thinkingDone t => exact h it (by simpa [step] using hit)
  | messageDone sr u =>
    cases ho : st.textItemOpened <;>
      simp only [step, stepMessageDone, ho, Bool.false_eq_true, if_false, if_true,
        List.append_assoc, List.cons_append, List.nil_append] at hit <;>
      rcases List.mem_append.mp hit with h1 | h2 <;>
      first
        | exact h it h1
        | (simp only [List.mem_cons, List.not_mem_nil, or_false] at h2
           rcases h2 with rfl | rfl | rfl | rfl <;> rfl)

theorem step_wire_suffix (ctx : StreamCtx) (st : StreamState) (e : ProviderEvent) :
    ∃ t, (step ctx st e).wire = st.wire ++ t := by
  cases e with
  | textDelta d =>
    cases ho : st.textItemOpened <;> cases hs : ctx.store <;>
      simp only [step, stepTextDelta, ensureTextItemOpened, ho, hs, Bool.false_eq_true,
        if_false, if_true, List.append_assoc, List.cons_append, List.nil_append] <;>
      exact ⟨_, rfl⟩
  | toolCallStart cid nm n => exact ⟨_, rfl⟩
  | toolCallDelta cid d =>
    simp only [step, stepToolDelta]
    cases st.functionCalls.find? (fun f => f.callId == cid) <;> exact ⟨[], by simp⟩
  | toolCallDone cid args n =>
    simp only [step, stepToolDone]
    cases st.functionCalls.find? (fun f => f.callId == cid) with
    | none => exact ⟨[], by simp⟩
    | some fc => exact ⟨_, rfl⟩
  | thinkingDelta d => exact ⟨[], by simp [step]⟩
  | thinkingDone t => exact ⟨[], by simp [step]⟩
  | messageDone sr u =>
    cases ho : st.textItemOpened <;>
      simp only [step, stepMessageDone, ho, Bool.false_eq_true, if_false, if_true,
        List.append_assoc, List.cons_append, List.nil_append] <;>
      exact ⟨_, rfl⟩

theorem foldl_wire_suffix (ctx : StreamCtx) (l : List ProviderEvent) :
    ∀ st : StreamState, ∃ t, (l.foldl (step ctx) st).wire = st.wire ++ t := by
  induction l with
  | nil => exact fun st => ⟨[], by simp⟩
  | cons e rest ih =>
    intro st
    obtain ⟨t1, h1⟩ := step_wire_suffix ctx st e
    obtain ⟨t2, h2⟩ := ih (step ctx st e)
    exact ⟨t1 ++ t2, by rw [List.foldl_cons, h2, h1, List.append_assoc]⟩

theorem streamResponse_wire_suffix (ctx : StreamCtx) (events : List ProviderEvent)
    (ending : StreamEnd) :
    ∃ t, (streamResponse ctx events ending).wire = (runEvents ctx events).wire ++ t := by
  cases ending with
  | natural =>
    cases hs : ctx.store <;>
      simp only [streamResponse, finishStream, hs, Bool.false_eq_true, if_false, if_true] <;>
      exact ⟨_, rfl⟩
  | abortError =>
    cases hs : ctx.store <;>
      simp only [streamResponse, abortStream, hs, Bool.false_eq_true, if_false, if_true] <;>
      exact ⟨_, rfl⟩
  | otherError msg =>
    cases hs : ctx.store <;>
      simp only [streamResponse, failStream, hs, Bool.false_eq_true, if_false, if_true] <;>
      exact ⟨_, rfl⟩

theorem streamResponse_wire_decompose (ctx : StreamCtx) (events : List ProviderEvent)
    (ending : StreamEnd) :
    ∃ t, (streamResponse ctx events ending).wire = .ev (inProgressEvent ctx) :: t := by
  obtain ⟨t1, h1⟩ := foldl_wire_suffix ctx events (afterInProgress ctx)
  obtain ⟨t2, h2⟩ := streamResponse_wire_suffix ctx events ending
  refine ⟨t1 ++ t2, ?_⟩
  rw [h2]
  show (runEvents ctx events).wire ++ t2 = _
  rw [runEvents, h1]
  show ([.ev (inProgressEvent ctx)] ++ t1) ++ t2 = _
  simp

theorem step_noMsg (ctx : StreamCtx) (st : StreamState) (e : ProviderEvent)
    (he : e.isTextDelta = false)
    (h1 : st.textItemOpened = false) (h2 : ∀ it ∈ st.wire, isMsgWireEvent it = false) :
    (step ctx st e).textItemOpened = false ∧
      ∀ it ∈ (step ctx st e).wire, isMsgWireEvent it = false := by
  cases e with
  | textDelta d => simp [ProviderEvent.isTextDelta] at he
  | toolCallStart cid nm n =>
    refine ⟨by simpa [step, stepToolStart] using h1, ?_⟩
    intro it hit
    simp only [step, stepToolStart] at hit
    rcases List.mem_append.mp hit with ha | hb
    · exact h2 it ha
    · simp only [List.mem_cons, List.not_mem_nil, or_false] at hb
      subst hb; rfl
  | toolCallDelta cid d =>
    simp only [step, stepToolDelta]
    cases st.functionCalls.find? (fun f => f.callId == cid) <;>
      exact ⟨h1, fun it hit => h2 it (by simpa using hit)⟩
  | toolCallDone cid args n =>
    simp only [step, stepToolDone]
    cases st.functionCalls.find? (fun f => f.callId == cid) with
    | none => exact ⟨h1, fun it hit => h2 it (by simpa using hit)⟩
    | some fc =>
      refine ⟨h1, ?_⟩
      intro it hit
      rcases List.mem_append.mp hit with ha | hb
      · exact h2 it ha
      · simp only [List.mem_cons, List.not_mem_nil, or_false] at hb
        subst hb; rfl
  | thinkingDelta d => exact ⟨h1, fun it hit => h2 it (by simpa [step] using hit)⟩
  | thinkingDone t => exact ⟨h1, fun it hit => h2 it (by simpa [step] using hit)⟩
  | messageDone sr u =>
    simp only [step, stepMessageDone, h1, Bool.false_eq_true, if_false]
    refine ⟨by simp [h1], ?_⟩
    intro it hit
    rcases List.mem_append.mp hit with ha | hb
    · exact h2 it ha
    · simp only [List.mem_cons, List.not_mem_nil, or_false] at hb
      subst hb; rfl

theorem step_preClean (ctx : StreamCtx) (st : StreamState) (e : ProviderEvent)
    (htd : e.isTextDelta = false) (hts : e.isToolStart = false)
    (h : PreClean st) : PreClean (step ctx st e) := by
  obtain ⟨h1, h2, h3, h4⟩ := h
  cases e with
  | textDelta d => simp [ProviderEvent.isTextDelta] at htd
  | toolCallStart cid nm n => simp [ProviderEvent.isToolStart] at hts
  | toolCallDelta cid d =>
    simp only [step, stepToolDelta, h2, List.find?_nil]
    exact ⟨by simp [h1], by simp [h2], by simp [h3], by simp [h4]⟩
  | toolCallDone cid args n =>
    simp only [step, stepToolDone, h2, List.find?_nil]
    exact ⟨by simp [h1], by simp [h2], by simp [h3], by simp [h4]⟩
  | thinkingDelta d =>
    exact ⟨by simp [step, h1], by simp [step, h2], by simp [step, h3], by simp [step, h4]⟩
  | thinkingDone t =>
    exact ⟨by simp [step, h1], by simp [step, h2], by simp [step, h3], by simp [step, h4]⟩
  | messageDone sr u =>
    simp only [step, stepMessageDone, h1, Bool.false_eq_true, if_false]
    exact ⟨by simp [h1], by simp [h2], by simp [h3], by simp [h4]⟩

theorem step_midClean (ctx : StreamCtx) (st : StreamState) (e : ProviderEvent)
    (hts : e.isToolStart = false)
    (h : MidClean st) : MidClean (step ctx st e) := by
  obtain ⟨h1, h2, h3, h4⟩ := h
  cases e with
  | textDelta d =>
    cases hs : ctx.store <;>
      simp only [step, stepTextDelta, ensureTextItemOpened, h1, if_true, hs,
        Bool.false_eq_true, if_false] <;>
      exact ⟨by simp [h1], by simp [h2], by simp [h3], by simp [h4]⟩
  | toolCallStart cid nm n => simp [ProviderEvent.isToolStart] at hts
  | toolCallDelta cid d =>
    simp only [step, stepToolDelta, h2, List.find?_nil]
    exact ⟨by simp [h1], by simp [h2], by simp [h3], by simp [h4]⟩
  | toolCallDone cid args n =>
    simp only [step, stepToolDone, h2, List.find?_nil]
    exact ⟨by simp [h1], by simp [h2], by simp [h3], by simp [h4]⟩
  | thinkingDelta d =>
    exact ⟨by simp [step, h1], by simp [step, h2], by simp [step, h3], by simp [step, h4]⟩
  | thinkingDone t =>
    exact ⟨by simp [step, h1], by simp [step, h2], by simp [step, h3], by simp [step, h4]⟩
  | messageDone sr u =>
    simp only [step, stepMessageDone, h1, if_true]
    exact ⟨by simp [h1], by simp [h2], by simp [h3], by simp [h4]⟩

theorem addedIndices_append (w t : List WireItem) :
    addedIndices (w ++ t) = addedIndices w ++ addedIndices t := by
  simp [addedIndices, List.filterMap_append]

theorem step_addedOk (ctx : StreamCtx) (st : StreamState) (e : ProviderEvent)
    (h : AddedOk st) : AddedOk (step ctx st e) := by
  unfold AddedOk at h ⊢
  cases e with
  | textDelta d =>
    cases ho : st.textItemOpened <;> cases hs : ctx.store <;>
      simp only [step, stepTextDelta, ensureTextItemOpened, ho, hs, Bool.false_eq_true,
        if_false, if_true, List.append_assoc, List.cons_append, List.nil_append] <;>
      rw [addedIndices_append, h] <;>
      simp [addedIndices, addedIdxOf, List.range_succ]
  | toolCallStart cid nm n =>
    simp only [step, stepToolStart]
    rw [addedIndices_append, h]
    simp [addedIndices, addedIdxOf, List.range_succ]
  | toolCallDelta cid d =>
    simp only [step, stepToolDelta]
    cases st.functionCalls.find? (fun f => f.callId == cid) <;> simpa using h
  | toolCallDone cid args n =>
    simp only [step, stepToolDone]
    cases st.functionCalls.find? (fun f => f.callId == cid) with
    | none => simpa using h
    | some fc =>
      rw [addedIndices_append, h]
      simp [addedIndices, addedIdxOf]
  | thinkingDelta d => simpa [step] using h
  | thinkingDone t => simpa [step] using h
  | messageDone sr u =>
    cases ho : st.textItemOpened <;>
      simp only [step, stepMessageDone, ho, Bool.false_eq_true, if_false, if_true,
        List.append_assoc, List.cons_append, List.nil_append] <;>
      rw [addedIndices_append, h] <;>
      simp [addedIndices, addedIdxOf]

theorem afterInProgress_seqOk (ctx : StreamCtx) :
    SeqOk (afterInProgress ctx).wire (afterInProgress ctx).sequence := by
  constructor
  · simp [afterInProgress, inProgressEvent, seqsOf, seqOfItem]
  · intro n hn
    simp [afterInProgress, inProgressEvent, seqsOf, seqOfItem] at hn
    simp [afterInProgress, hn]

theorem runEvents_seqOk (ctx : StreamCtx) (events : List ProviderEvent) :
    SeqOk (runEvents ctx events).wire (runEvents ctx events).sequence :=
  foldl_preserve (step ctx) (fun b a hb => step_seqOk ctx b a hb) events
    (afterInProgress ctx) (afterInProgress_seqOk ctx)

theorem streamResponse_seqOk (ctx : StreamCtx) (events : List ProviderEvent)
    (ending : StreamEnd) :
    SeqOk (streamResponse ctx events ending).wire
      (streamResponse ctx events ending).sequence := by
  have h := runEvents_seqOk ctx events
  cases ending with
  | natural =>
    cases hs : ctx.store <;>
      simp only [streamResponse, finishStream, hs, Bool.false_eq_true, if_false, if_true] <;>
      exact seqOk_snoc_done h
  | abortError =>
    cases hs : ctx.store <;>
      simp only [streamResponse, abortStream, hs, Bool.false_eq_true, if_false, if_true] <;>
      exact seqOk_snoc_done h
  | otherError msg =>
    cases hs : ctx.store <;>
      simp only [streamResponse, failStream, hs, Bool.false_eq_true, if_false, if_true] <;>
      exact seqOk_snoc_err h _ _ rfl rfl

theorem streamResponse_wireEventOk (ctx : StreamCtx) (events : List ProviderEvent)
    (ending : StreamEnd) :
    ∀ it ∈ (streamResponse ctx events ending).wire, wireEventOkB it = true := by
  have h : ∀ it ∈ (runEvents ctx events).wire, wireEventOkB it = true :=
    foldl_preserve (step ctx) (fun b a hb => step_wireEventOk ctx b a hb) events
      (afterInProgress ctx)
      (by
        intro it hit
        simp only [afterInProgress] at hit
        simp only [List.mem_singleton] at hit
        subst hit; rfl)
  intro it hit
  cases ending with
  | natural =>
    revert hit
    cases hs : ctx.store <;>
      simp only [streamResponse, finishStream, hs, Bool.false_eq_true, if_false, if_true] <;>
      intro hit <;>
      rcases List.mem_append.mp hit with ha | hb <;>
      first
        | exact h it ha
        | (simp only [List.mem_singleton] at hb; subst hb; rfl)
  | abortError =>
    revert hit
    cases hs : ctx.store <;>
      simp only [streamResponse, abortStream, hs, Bool.false_eq_true, if_false, if_true] <;>
      intro hit <;>
      rcases List.mem_append.mp hit with ha | hb <;>
      first
        | exact h it ha
        | (simp only [List.mem_singleton] at hb; subst hb; rfl)
  | otherError msg =>
    revert hit
    cases hs : ctx.store <;>
      simp only [streamResponse, failStream, hs, Bool.false_eq_true, if_false, if_true] <;>
      intro hit <;>
      rcases List.mem_append.mp hit with ha | hb <;>
      first
        | exact h it ha
        | (simp only [List.mem_cons, List.not_mem_nil, or_false] at hb
           rcases hb with rfl | rfl | rfl <;> rfl)

theorem streamResponse_addedOk (ctx : StreamCtx) (events : List ProviderEvent)
    (ending : StreamEnd) :
    addedIndices (streamResponse ctx events ending).wire =
      (List.range (streamResponse ctx events ending).nextOutputIndex).map some := by
  have h : AddedOk (runEvents ctx events) :=
    foldl_preserve (step ctx) (fun b a hb => step_addedOk ctx b a hb) events
      (afterInProgress ctx)
      (by
        unfold AddedOk
        simp [afterInProgress, initialState, inProgressEvent, addedIndices, addedIdxOf]
        cases ctx.store <;> simp)
  unfold AddedOk at h
  cases ending with
  | natural =>
    cases hs : ctx.store <;>
      simp only [streamResponse, finishStream, hs, Bool.false_eq_true, if_false, if_true] <;>
      rw [addedIndices_append, h] <;>
      simp [addedIndices, addedIdxOf]
  | abortError =>
    cases hs : ctx.store <;>
      simp only [streamResponse, abortStream, hs, Bool.false_eq_true, if_false, if_true] <;>
      rw [addedIndices_append, h] <;>
      simp [addedIndices, addedIdxOf]
  | otherError msg =>
    cases hs : ctx.store <;>
      simp only [streamResponse, failStream, hs, Bool.false_eq_true, if_false, if_true] <;>
      rw [addedIndices_append, h] <;>
      simp [addedIndices, addedIdxOf]

theorem mem_of_suffix {it : WireItem} {w w' : List WireItem} (h : it ∈ w)
    (hs : ∃ t, w' = w ++ t) : it ∈ w' := by
  obtain ⟨t, rfl⟩ := hs
  exact List.mem_append_left t h

theorem runEvents_noMsg (ctx : StreamCtx) (events : List ProviderEvent)
    (h : ∀ e ∈ events, e.isTextDelta = false) :
    (runEvents ctx events).textItemOpened = false ∧
      ∀ it ∈ (runEvents ctx events).wire, isMsgWireEvent it = false :=
  foldl_preserve_cond (c := fun e => e.isTextDelta = false)
    (P := fun st : StreamState =>
      st.textItemOpened = false ∧ ∀ it ∈ st.wire, isMsgWireEvent it = false)
    (step ctx)
    (fun b a hc hb => step_noMsg ctx b a hc hb.1 hb.2) events h (afterInProgress ctx)
    ⟨by simp only [afterInProgress, initialState]; cases ctx.store <;> rfl,
     by
      intro it hit
      simp only [afterInProgress, List.mem_singleton] at hit
      subst hit; rfl⟩

theorem streamResponse_noMsg (ctx : StreamCtx) (events : List ProviderEvent)
    (ending : StreamEnd) (h : ∀ e ∈ events, e.isTextDelta = false) :
    ∀ it ∈ (streamResponse ctx events ending).wire, isMsgWireEvent it = false := by
  have hrun := (runEvents_noMsg ctx events h).2
  intro it hit
  cases ending with
  | natural =>
    revert hit
    cases hs : ctx.store <;>
      simp only [streamResponse, finishStream, hs, Bool.false_eq_true, if_false, if_true] <;>
      intro hit <;>
      rcases List.mem_append.mp hit with ha | hb <;>
      first
        | exact hrun it ha
        | (simp only [List.mem_singleton] at hb; subst hb; rfl)
  | abortError =>
    revert hit
    cases hs : ctx.store <;>
      simp only [streamResponse, abortStream, hs, Bool.false_eq_true, if_false, if_true] <;>
      intro hit <;>
      rcases List.mem_append.mp hit with ha | hb <;>
      first
        | exact hrun it ha
        | (simp only [List.mem_singleton] at hb; subst hb; rfl)
  | otherError msg =>
    revert hit
    cases hs : ctx.store <;>
      simp only [streamResponse, failStream, hs, Bool.false_eq_true, if_false, if_true] <;>
      intro hit <;>
      rcases List.mem_append.mp hit with ha | hb <;>
      first
        | exact hrun it ha
        | (simp only [List.mem_cons, List.not_mem_nil, or_false] at hb
           rcases hb with rfl | rfl | rfl <;> rfl)

/-- Membership test: an output_item.added event announcing a function call
at a given index, in progress, with empty arguments. -/
def isAddedFcAt (idx : Nat) (cid nm : String) : WireItem → Bool
  | .ev e =>
      e.etype == "response.output_item.added" && e.outputIndex == some idx &&
      (match e.item with
       | some (OutputItem.functionCall _ c s nme args) =>
           c == cid && s == "in_progress" && nme == nm && args == ""
       | _ => false)
  | .doneMark => false

/-- Membership test: an output_item.added event announcing the message item
at a given index, in progress, with empty content. -/
def isAddedMsgAt (idx : Nat) (mid : String) : WireItem → Bool
  | .ev e =>
      e.etype == "response.output_item.added" && e.outputIndex == some idx &&
      e.item == some (OutputItem.message mid "in_progress" [])
  | .doneMark => false

theorem stepTextDelta_pre_to_mid (ctx : StreamCtx) (st : StreamState) (d : String)
    (h : PreClean st) :
    MidClean (step ctx st (.textDelta d)) ∧
      WireItem.ev { etype := "response.output_item.added", seq := some (st.sequence + 1),
                    outputIndex := some 0,
                    item := some (.message ctx.messageId "in_progress" []) }
      ∈ (step ctx st (.textDelta d)).wire := by
  obtain ⟨h1, h2, h3, h4⟩ := h
  cases hs : ctx.store <;>
    simp only [step, stepTextDelta, ensureTextItemOpened, h1, Bool.false_eq_true,
      if_false, if_true, hs, h3, List.append_assoc, List.cons_append, List.nil_append] <;>
    exact ⟨⟨by simp, by simp [h2], by simp, by simp⟩, by simp⟩

theorem stepToolStart_at (st : StreamState) (cid nm : String) :
    WireItem.ev { etype := "response.output_item.added", seq := some (st.sequence + 1),
                  outputIndex := some st.nextOutputIndex,
                  item := some (.functionCall (newId "fc_" st.idCounter) cid "in_progress" nm "") }
    ∈ (stepToolStart st cid nm).wire := by
  simp only [stepToolStart]
  exact List.mem_append_right _ (List.mem_singleton.mpr rfl)

theorem afterInProgress_preClean (ctx : StreamCtx) : PreClean (afterInProgress ctx) :=
  ⟨by simp only [afterInProgress, initialState]; cases ctx.store <;> rfl,
   by simp only [afterInProgress, initialState]; cases ctx.store <;> rfl,
   by simp only [afterInProgress, initialState]; cases ctx.store <;> rfl,
   by simp only [afterInProgress, initialState]; cases ctx.store <;> rfl⟩

theorem mem_streamResponse_of_decomp (ctx : StreamCtx) (l1 l2 : List ProviderEvent)
    (e : ProviderEvent) (ending : StreamEnd) {it : WireItem}
    (h : it ∈ (step ctx (l1.foldl (step ctx) (afterInProgress ctx)) e).wire) :
    it ∈ (streamResponse ctx (l1 ++ e :: l2) ending).wire := by
  refine mem_of_suffix ?_ (streamResponse_wire_suffix ctx _ ending)
  rw [runEvents, List.foldl_append, List.foldl_cons]
  exact mem_of_suffix h (foldl_wire_suffix ctx l2 _)

/-- Claim C2: in the streaming path, output_index values are assigned in
the order items first appear; with no text_delta at all, no message item,
content_part or output_text event and no message-typed output_item.done is
emitted and the first function call occupies index 0; with text before the
first tool call, the message is at index 0 and the first function call at
index 1; announced indices are exactly 0, 1, 2, ... in emission order. -/
theorem C2_main (ctx : StreamCtx) (events : List ProviderEvent) (ending : StreamEnd) :
    ((∀ e ∈ events, e.isTextDelta = false) →
      ∀ it ∈ (streamResponse ctx events ending).wire, isMsgWireEvent it = false)
    ∧ (∀ pre cid nm n post,
        events = pre ++ ProviderEvent.toolCallStart cid nm n :: post →
        (∀ e ∈ pre, e.isTextDelta = false ∧ e.isToolStart = false) →
        (streamResponse ctx events ending).wire.any (isAddedFcAt 0 cid nm) = true)
    ∧ (∀ pre d mid cid nm n post,
        events = pre ++ ProviderEvent.textDelta d ::
          (mid ++ ProviderEvent.toolCallStart cid nm n :: post) →
        (∀ e ∈ pre, e.isTextDelta = false ∧ e.isToolStart = false) →
        (∀ e ∈ mid, e.isToolStart = false) →
        (streamResponse ctx events ending).wire.any (isAddedMsgAt 0 ctx.messageId) = true ∧
        (streamResponse ctx events ending).wire.any (isAddedFcAt 1 cid nm) = true)
    ∧ addedIndices (streamResponse ctx events ending).wire =
        (List.range (addedIndices (streamResponse ctx events ending).wire).length).map some := by
  refine ⟨fun h => streamResponse_noMsg ctx events ending h, ?_, ?_, ?_⟩
  · intro pre cid nm n post hev hpre
    subst hev
    have hPre : PreClean (pre.foldl (step ctx) (afterInProgress ctx)) :=
      foldl_preserve_cond (c := fun e => e.isTextDelta = false ∧ e.isToolStart = false)
        (P := PreClean) (step ctx)
        (fun b a hc hb => step_preClean ctx b a hc.1 hc.2 hb) pre hpre
        (afterInProgress ctx) (afterInProgress_preClean ctx)
    have hmem := stepToolStart_at (pre.foldl (step ctx) (afterInProgress ctx)) cid nm
    rw [hPre.2.2.1] at hmem
    exact List.any_eq_true.mpr
      ⟨_, mem_streamResponse_of_decomp ctx pre post _ ending hmem, by simp [isAddedFcAt]⟩
  · intro pre d mid cid nm n post hev hpre hmid
    subst hev
    have hPre : PreClean (pre.foldl (step ctx) (afterInProgress ctx)) :=
      foldl_preserve_cond (c := fun e => e.isTextDelta = false ∧ e.isToolStart = false)
        (P := PreClean) (step ctx)
        (fun b a hc hb => step_preClean ctx b a hc.1 hc.2 hb) pre hpre
        (afterInProgress ctx) (afterInProgress_preClean ctx)
    obtain ⟨hMid0, hMsgMem⟩ :=
      stepTextDelta_pre_to_mid ctx (pre.foldl (step ctx) (afterInProgress ctx)) d hPre
    have hMid : MidClean (mid.foldl (step ctx)
        (step ctx (pre.foldl (step ctx) (afterInProgress ctx)) (.textDelta d))) :=
      foldl_preserve_cond (c := fun e => e.isToolStart = false)
        (P := MidClean) (step ctx)
        (fun b a hc hb => step_midClean ctx b a hc hb) mid hmid _ hMid0
    have hfc := stepToolStart_at (mid.foldl (step ctx)
        (step ctx (pre.foldl (step ctx) (afterInProgress ctx)) (.textDelta d))) cid nm
    rw [hMid.2.2.1] at hfc
    have hfold : (pre ++ ProviderEvent.textDelta d :: mid).foldl (step ctx) (afterInProgress ctx)
        = mid.foldl (step ctx)
            (step ctx (pre.foldl (step ctx) (afterInProgress ctx)) (.textDelta d)) := by
      rw [List.foldl_append, List.foldl_cons]
    constructor
    · exact List.any_eq_true.mpr
        ⟨_, mem_streamResponse_of_decomp ctx pre
              (mid ++ ProviderEvent.toolCallStart cid nm n :: post) _ ending hMsgMem,
         by simp [isAddedMsgAt]⟩
    · have hg := mem_streamResponse_of_decomp ctx (pre ++ ProviderEvent.textDelta d :: mid)
        post (.toolCallStart cid nm n) ending (by rw [hfold]; exact hfc)
      rw [List.append_assoc, List.cons_append] at hg
      exact List.any_eq_true.mpr ⟨_, hg, by simp [isAddedFcAt]⟩
  · have h := streamResponse_addedOk ctx events ending
    rw [h]
    simp

-- ---------------------------------------------------------------------------
-- Assembler lemmas
-- ---------------------------------------------------------------------------

theorem pushInputItem_eq (acc : List InItem) (it : InItem) :
    pushInputItem acc it = if it.isItemRef then acc else acc ++ [it] := by
  cases it <;> rfl

theorem foldl_pushInputItem (arr : List InItem) (seed : List InItem) :
    arr.foldl pushInputItem seed = seed ++ arr.filter (fun it => !it.isItemRef) := by
  induction arr generalizing seed with
  | nil => simp
  | cons a t ih =>
    rw [List.foldl_cons, pushInputItem_eq, List.filter_cons]
    by_cases ha : a.isItemRef = true
    · simp only [ha, if_true, Bool.not_true, Bool.false_eq_true, if_false]
      exact ih seed
    · have ha2 : a.isItemRef = false := by
        cases hx : a.isItemRef
        · rfl
        · exact absurd hx ha
      simp only [ha2, Bool.false_eq_true, if_false, Bool.not_false, if_true]
      rw [ih (seed ++ [a]), List.append_assoc]
      rfl

theorem appendCurrentInput_eq (seed : List InItem) (input : ReqInput) :
    appendCurrentInput seed input = seed ++ normCurrent input := by
  cases input with
  | str s =>
    simp only [appendCurrentInput, normCurrent]
    split <;> simp
  | items arr => simp [appendCurrentInput, normCurrent, foldl_pushInputItem]

theorem filter_nonref_idem (arr : List InItem) :
    (arr.filter (fun it => !it.isItemRef)).filter (fun it => !it.isItemRef)
      = arr.filter (fun it => !it.isItemRef) :=
  List.filter_eq_self.mpr (fun _ ha => (List.mem_filter.mp ha).2)

-- ---------------------------------------------------------------------------
-- Persistence-gateway lemmas
-- ---------------------------------------------------------------------------

theorem guardedOutput_noop (r : DbRow) (id : String) (outs : List OutputItem)
    (h : r.status ≠ "in_progress") : persistGuardedOutput (some r) id outs = some r := by
  unfold persistGuardedOutput
  simp only [Option.map_some']
  rw [if_neg (fun hc => h hc.2)]

theorem cancelPOST_noop (r : DbRow) (now : Nat)
    (h1 : r.status ≠ "queued") (h2 : r.status ≠ "in_progress") :
    (cancelPOST (some r) now).2 = some r := by
  cases hb : r.store with
  | false => simp [cancelPOST, hb]
  | true =>
    simp only [cancelPOST, hb]
    rw [if_neg (by simp)]
    rw [if_neg (fun hor => hor.elim h1 h2)]

-- ---------------------------------------------------------------------------
-- Claim theorems
-- ---------------------------------------------------------------------------

/-- Claim C1, counterexample: the claim as stated is false.  A row already
in the terminal status `cancelled` has its status overwritten to
`completed` by the stream's final persist (the `persistResponse` upsert
that `streamResponse` issues on natural completion), because the ON
CONFLICT update carries no status guard. -/
theorem C1_counterexample :
    (streamResponse { store := true, responseId := "resp_1", messageId := "msg_1" } []
        .natural).dbWrites.getLast?
      = some (.upsert "resp_1" "completed" [] none none none)
    ∧ (applyDbWrite
        (some { id := "resp_1", status := "cancelled", outputItemsJson := [],
                cancelledAt := some 5 })
        (.upsert "resp_1" "completed" [] none none none) 0 9).map DbRow.status
      = some "completed"
    ∧ ("cancelled" : String) ≠ "completed" := by
  refine ⟨rfl, rfl, by decide⟩

/-- Claim C1 (amended): once a row is in a terminal status, the guarded
partial-output update and the cancel endpoint leave it unchanged; the
`persistResponse` upsert used by the streaming final, abort and background
persists, however, overwrites the status unconditionally. -/
theorem C1_main (r : DbRow) (id : String) (outs : List OutputItem) (now : Nat)
    (h : r.status = "cancelled" ∨ r.status = "completed" ∨ r.status = "failed" ∨
         r.status = "incomplete") :
    persistGuardedOutput (some r) id outs = some r
    ∧ (cancelPOST (some r) now).2 = some r
    ∧ ∀ (status2 : String) (outs2 : List OutputItem) (usage2 : Option Usage)
        (err2 : Option ErrPayload) (inc2 : Option String) (ca2 now2 : Nat),
        (persistResponse (some r) id status2 outs2 usage2 err2 inc2 ca2 now2).status
          = status2 := by
  have hne : r.status ≠ "in_progress" := by rcases h with h | h | h | h <;> simp [h]
  have hnq : r.status ≠ "queued" := by rcases h with h | h | h | h <;> simp [h]
  exact ⟨guardedOutput_noop r id outs hne, cancelPOST_noop r now hnq hne,
    fun _ _ _ _ _ _ _ => rfl⟩

/-- Witness for C1_main at a concrete cancelled row. -/
theorem C1_main_witness :
    persistGuardedOutput
        (some { id := "resp_1", status := "cancelled", outputItemsJson := [],
                cancelledAt := some 5 }) "resp_1" []
      = some { id := "resp_1", status := "cancelled", outputItemsJson := [],
               cancelledAt := some 5 }
    ∧ (cancelPOST
        (some { id := "resp_1", status := "cancelled", outputItemsJson := [],
                cancelledAt := some 5 }) 7).2
      = some { id := "resp_1", status := "cancelled", outputItemsJson := [],
               cancelledAt := some 5 }
    ∧ (persistResponse
        (some { id := "resp_1", status := "cancelled", outputItemsJson := [],
                cancelledAt := some 5 }) "resp_1" "completed" [] none none none 0 9).status
      = "completed" :=
  ⟨(C1_main _ "resp_1" [] 7 (Or.inl rfl)).1,
   (C1_main _ "resp_1" [] 7 (Or.inl rfl)).2.1,
   (C1_main _ "resp_1" [] 7 (Or.inl rfl)).2.2 "completed" [] none none none 0 9⟩

/-- Claim C6: applying a partial-output update to a row whose status is not
in_progress leaves the row entirely unchanged. -/
theorem C6_main (r : DbRow) (id : String) (outs : List OutputItem)
    (h : r.status ≠ "in_progress") :
    persistGuardedOutput (some r) id outs = some r :=
  guardedOutput_noop r id outs h

/-- Witness for C6_main at a concrete completed row. -/
theorem C6_main_witness :
    persistGuardedOutput
        (some { id := "resp_2", status := "completed", outputItemsJson := [] })
        "resp_2" [OutputItem.message "msg_9" "completed" ["x"]]
      = some { id := "resp_2", status := "completed", outputItemsJson := [] } :=
  C6_main _ "resp_2" _ (by decide)

/-- Claim C7: with previous_response_id set, assembly fails 404/not_found
when the row is absent, 400/invalid_request_error when the stored row has
store=false, and otherwise (the prior status is never consulted, so
incomplete and cancelled rows are allowed) succeeds with the stored input
items followed by the stored output items before the normalized current
input. -/
theorem C7_main (lookup : String → Option PrevRow) (req : AsmRequest) (pid : String)
    (hprev : req.previous_response_id = some pid) :
    (lookup pid = none →
      buildInputItems lookup req =
        .error { httpStatus := 404, errType := "not_found",
                 param := "previous_response_id" })
    ∧ (∀ row, lookup pid = some row → row.store = false →
      buildInputItems lookup req =
        .error { httpStatus := 400, errType := "invalid_request_error",
                 param := "previous_response_id" })
    ∧ (∀ row, lookup pid = some row → row.store = true →
      buildInputItems lookup req =
        .ok ((row.inputItemsJson ++ row.outputItemsJson) ++ normCurrent req.input)) := by
  refine ⟨?_, ?_, ?_⟩
  · intro hl
    simp [buildInputItems, hprev, hl]
  · intro row hl hs
    simp [buildInputItems, hprev, hl, hs]
  · intro row hl hs
    simp only [buildInputItems, hprev, hl, hs]
    rw [if_neg (by simp)]
    rw [appendCurrentInput_eq]

/-- Witness for C7_main: continuing from a stored incomplete row. -/
theorem C7_main_witness :
    buildInputItems
        (fun i => if i = "resp_prev" then
          some { store := true, status := "incomplete",
                 inputItemsJson := [.message "user" "hi"],
                 outputItemsJson := [.storedItem (some "msg_a") 0] }
          else none)
        { input := .str "again", previous_response_id := some "resp_prev" }
      = .ok (([InItem.message "user" "hi"] ++ [InItem.storedItem (some "msg_a") 0]) ++
          normCurrent (.str "again")) :=
  (C7_main _ _ "resp_prev" rfl).2.2
    { store := true, status := "incomplete",
      inputItemsJson := [.message "user" "hi"],
      outputItemsJson := [.storedItem (some "msg_a") 0] }
    (by simp) rfl

/-- Claim C10: item_reference entries never contribute anything: the
assembled list equals the one obtained by deleting every item_reference
entry from the array input, whether or not the referenced id occurs in the
loaded context. -/
theorem C10_main (lookup : String → Option PrevRow) (req : AsmRequest) (arr : List InItem)
    (h : req.input = .items arr) :
    buildInputItems lookup req =
      buildInputItems lookup
        { req with input := .items (arr.filter (fun it => !it.isItemRef)) } := by
  cases hp : req.previous_response_id with
  | none =>
    simp only [buildInputItems, hp, h]
    rw [appendCurrentInput_eq, appendCurrentInput_eq]
    simp only [normCurrent, filter_nonref_idem]
  | some pid =>
    cases hl : lookup pid with
    | none => simp [buildInputItems, hp, hl]
    | some row =>
      cases hb : row.store with
      | false => simp [buildInputItems, hp, hl, hb]
      | true =>
        simp only [buildInputItems, hp, hl]
        rw [if_neg (by simp [hb]), if_neg (by simp [hb])]
        simp only [h]
        rw [appendCurrentInput_eq, appendCurrentInput_eq]
        simp only [normCurrent, filter_nonref_idem]

/-- Witness for C10_main: an item_reference whose id is absent from the
context is dropped without affecting the rest. -/
theorem C10_main_witness :
    buildInputItems (fun _ => none)
        { input := .items [.message "user" "hi", .itemReference "msg_missing"],
          previous_response_id := none }
      = buildInputItems (fun _ => none)
        { input := .items ([InItem.message "user" "hi",
            InItem.itemReference "msg_missing"].filter (fun it => !it.isItemRef)),
          previous_response_id := none } :=
  C10_main (fun _ => none) _ [.message "user" "hi", .itemReference "msg_missing"] rfl

/-- Claim C8, counterexample: the claim as stated is false.  A request with
background=true and store=false passes validation (the schema has no
background-implies-store refinement); runResponse then treats it as a
foreground request. -/
theorem C8_counterexample :
    validateRequest { model := "m-responses", background := some true, store := some false }
      = some { model := "m-responses", temperature := none, top_p := none,
               max_output_tokens := none, stream := false, store := false,
               background := true }
    ∧ dispatchMode { model := "m-responses", temperature := none, top_p := none,
                     max_output_tokens := none, stream := false, store := false,
                     background := true } ≠ RunMode.background := by
  exact ⟨rfl, by decide⟩

/-- Claim C8 (amended): validation enforces the temperature, top_p and
max_output_tokens bounds, but accepts background=true with store=false;
such a request is merely dispatched to a non-background mode because
background execution requires background AND store. -/
theorem C8_main :
    (∀ (r : RawRequest) (t : Rat), r.temperature = some t → ¬(0 ≤ t ∧ t ≤ 2) →
      validateRequest r = none)
    ∧ (∀ (r : RawRequest) (p : Rat), r.top_p = some p → ¬(0 ≤ p ∧ p ≤ 1) →
      validateRequest r = none)
    ∧ (∀ (r : RawRequest) (m : Int), r.max_output_tokens = some m → ¬(0 < m) →
      validateRequest r = none)
    ∧ (∀ (r : RawRequest) (q : ParsedRequest), validateRequest r = some q →
      q.background = true → q.store = false → dispatchMode q ≠ RunMode.background) := by
  refine ⟨?_, ?_, ?_, ?_⟩
  · intro r t ht hb
    have hd : decide (0 ≤ t ∧ t ≤ 2) = false := decide_eq_false hb
    simp [validateRequest, ht, hd]
  · intro r p hp hb
    have hd : decide (0 ≤ p ∧ p ≤ 1) = false := decide_eq_false hb
    simp [validateRequest, hp, hd]
  · intro r m hm hb
    have hd : decide (0 < m) = false := decide_eq_false hb
    simp [validateRequest, hm, hd]
  · intro r q _ hb hs
    simp only [dispatchMode, hb, hs, Bool.and_false]
    rw [if_neg (by simp)]
    split <;> simp

/-- Witness for C8_main: out-of-bound requests are rejected, and an
accepted background-without-store request is not dispatched to background
mode. -/
theorem C8_main_witness :
    validateRequest { model := "m-responses", temperature := some 3 } = none
    ∧ validateRequest { model := "m-responses", top_p := some 2 } = none
    ∧ validateRequest { model := "m-responses", max_output_tokens := some 0 } = none
    ∧ dispatchMode { model := "m-responses", temperature := none, top_p := none,
                     max_output_tokens := none, stream := true, store := false,
                     background := true } ≠ RunMode.background :=
  ⟨C8_main.1 _ 3 rfl (by norm_num),
   C8_main.2.1 _ 2 rfl (by norm_num),
   C8_main.2.2.1 _ 0 rfl (by norm_num),
   C8_main.2.2.2
     { model := "m-responses", stream := some true, store := some false,
       background := some true }
     _ rfl rfl rfl⟩

/-- Claim C5, counterexample: the claim as stated is false.  On the
non-abort error path the stream contains the typed `error` event, whose
payload carries no sequence_number at all (sseErrorPayload builds only
type and error members). -/
theorem C5_counterexample :
    WireItem.ev { etype := "error", errType := some "server_error",
                  errMessage := some "boom" }
      ∈ (streamResponse { store := false, responseId := "resp_1", messageId := "msg_1" }
          [] (.otherError "boom")).wire
    ∧ ({ etype := "error", errType := some "server_error",
         errMessage := some "boom" } : WireEvent).seq = none := by
  exact ⟨by decide, rfl⟩

/-- Claim C5 (amended): across every stream the sequence numbers carried by
the wire are strictly increasing; the first wire element is the
response.in_progress event carrying sequence_number 1; and every typed
event except the `error` event carries a sequence_number. -/
theorem C5_main (ctx : StreamCtx) (events : List ProviderEvent) (ending : StreamEnd) :
    (seqsOf (streamResponse ctx events ending).wire).Pairwise (· < ·)
    ∧ (streamResponse ctx events ending).wire.head? = some (.ev (inProgressEvent ctx))
    ∧ (inProgressEvent ctx).seq = some 1
    ∧ ∀ e : WireEvent, WireItem.ev e ∈ (streamResponse ctx events ending).wire →
        e.etype ≠ "error" → e.seq.isSome = true := by
  refine ⟨(streamResponse_seqOk ctx events ending).1, ?_, rfl, ?_⟩
  · obtain ⟨t, ht⟩ := streamResponse_wire_decompose ctx events ending
    rw [ht]; rfl
  · intro e he hne
    have h := streamResponse_wireEventOk ctx events ending (.ev e) he
    simp only [wireEventOkB, seqPresentB, Bool.and_eq_true, Bool.or_eq_true] at h
    rcases h.1.1 with h1 | h1
    · exact absurd (by simpa using h1) hne
    · exact h1

/-- Witness for C5_main on a small concrete stream. -/
theorem C5_main_witness :
    (seqsOf (streamResponse { store := false, responseId := "resp_1", messageId := "msg_1" }
        [.textDelta "Hi"] .natural).wire).Pairwise (· < ·)
    ∧ (streamResponse { store := false, responseId := "resp_1", messageId := "msg_1" }
        [.textDelta "Hi"] .natural).wire.head?
      = some (.ev (inProgressEvent
          { store := false, responseId := "resp_1", messageId := "msg_1" }))
    ∧ (inProgressEvent { store := false, responseId := "resp_1", messageId := "msg_1" }).seq
      = some 1
    ∧ (inProgressEvent { store := false, responseId := "resp_1",
                         messageId := "msg_1" }).seq.isSome = true :=
  ⟨(C5_main { store := false, responseId := "resp_1", messageId := "msg_1" }
       [.textDelta "Hi"] .natural).1,
   (C5_main { store := false, responseId := "resp_1", messageId := "msg_1" }
       [.textDelta "Hi"] .natural).2.1,
   (C5_main { store := false, responseId := "resp_1", messageId := "msg_1" }
       [.textDelta "Hi"] .natural).2.2.1,
   (C5_main { store := false, responseId := "resp_1", messageId := "msg_1" }
       [.textDelta "Hi"] .natural).2.2.2 _ (by decide) (by decide)⟩

/-- Claim C3: when the provider stream throws an abort error and
store=true, the orchestrator clears any pending debounced checkpoint,
appends exactly one incomplete persist carrying reason interrupted and the
accumulated output items (including the partial message text when the text
item is open), and emits exactly the [DONE] sentinel with no further typed
events after those already on the wire. -/
theorem C3_main (ctx : StreamCtx) (events : List ProviderEvent) (h : ctx.store = true) :
    (streamResponse ctx events .abortError).timerPending = false
    ∧ (streamResponse ctx events .abortError).dbWrites =
        (runEvents ctx events).dbWrites ++
          [.upsert ctx.responseId "incomplete"
            (collectOutputItems (runEvents ctx events) ctx.messageId)
            (runEvents ctx events).responseUsage none (some "interrupted")]
    ∧ (streamResponse ctx events .abortError).wire =
        (runEvents ctx events).wire ++ [.doneMark]
    ∧ ((runEvents ctx events).textItemOpened = true →
        OutputItem.message ctx.messageId "completed" [(runEvents ctx events).accumulatedText]
          ∈ collectOutputItems (runEvents ctx events) ctx.messageId) := by
  refine ⟨?_, ?_, ?_, ?_⟩
  · simp only [streamResponse, abortStream, h, if_true]
  · simp only [streamResponse, abortStream, h, if_true]
  · simp only [streamResponse, abortStream, h, if_true]
  · intro ho
    unfold collectOutputItems
    rw [ho]
    split
    · split <;> simp
    · exact absurd rfl (by assumption)

/-- Witness for C3_main on a concrete aborted stream with partial text. -/
theorem C3_main_witness :
    (streamResponse { store := true, responseId := "resp_1", messageId := "msg_1" }
        [.textDelta "Hello partial"] .abortError).timerPending = false
    ∧ (streamResponse { store := true, responseId := "resp_1", messageId := "msg_1" }
        [.textDelta "Hello partial"] .abortError).dbWrites =
        (runEvents { store := true, responseId := "resp_1", messageId := "msg_1" }
          [.textDelta "Hello partial"]).dbWrites ++
          [.upsert "resp_1" "incomplete"
            (collectOutputItems
              (runEvents { store := true, responseId := "resp_1", messageId := "msg_1" }
                [.textDelta "Hello partial"]) "msg_1")
            (runEvents { store := true, responseId := "resp_1", messageId := "msg_1" }
              [.textDelta "Hello partial"]).responseUsage none (some "interrupted")]
    ∧ (streamResponse { store := true, responseId := "resp_1", messageId := "msg_1" }
        [.textDelta "Hello partial"] .abortError).wire =
        (runEvents { store := true, responseId := "resp_1", messageId := "msg_1" }
          [.textDelta "Hello partial"]).wire ++ [.doneMark]
    ∧ OutputItem.message "msg_1" "completed"
        [(runEvents { store := true, responseId := "resp_1", messageId := "msg_1" }
          [.textDelta "Hello partial"]).accumulatedText]
      ∈ collectOutputItems
          (runEvents { store := true, responseId := "resp_1", messageId := "msg_1" }
            [.textDelta "Hello partial"]) "msg_1" :=
  ⟨(C3_main { store := true, responseId := "resp_1", messageId := "msg_1" }
      [.textDelta "Hello partial"] rfl).1,
   (C3_main { store := true, responseId := "resp_1", messageId := "msg_1" }
      [.textDelta "Hello partial"] rfl).2.1,
   (C3_main { store := true, responseId := "resp_1", messageId := "msg_1" }
      [.textDelta "Hello partial"] rfl).2.2.1,
   (C3_main { store := true, responseId := "resp_1", messageId := "msg_1" }
      [.textDelta "Hello partial"] rfl).2.2.2 (by decide)⟩

/-- Claim C4, counterexample: the claim as stated is false.  On abort, the
partially streamed message is persisted with status "completed": the abort
persist's output items carry the message built by createTextMessageItem,
whose status is hardcoded to completed. -/
theorem C4_counterexample :
    (streamResponse { store := true, responseId := "resp_1", messageId := "msg_1" }
        [.textDelta "Hello partial"] .abortError).dbWrites.getLast?
      = some (.upsert "resp_1" "incomplete"
          [OutputItem.message "msg_1" "completed" ["Hello partial"]]
          none none (some "interrupted"))
    ∧ (OutputItem.message "msg_1" "completed" ["Hello partial"]).statusOf = "completed" := by
  exact ⟨rfl, rfl⟩

theorem base_status_ok {st : StreamState} {mid : String} {o : OutputItem}
    (ho : o ∈ (if st.textItemOpened then
        [OutputItem.message mid "completed" [st.accumulatedText]] else []) ++
      st.functionCalls.map (fun fc =>
        OutputItem.functionCall fc.id fc.callId
          (if fc.done then "completed" else "incomplete") fc.name fc.arguments)) :
    (o.isMessage = true → o.statusOf = "completed")
    ∧ (o.statusOf = "completed" ∨ o.statusOf = "incomplete") := by
  rcases List.mem_append.mp ho with h1 | h1
  · by_cases hop : st.textItemOpened = true
    · rw [if_pos hop] at h1
      rcases List.mem_singleton.mp h1 with rfl
      exact ⟨fun _ => rfl, Or.inl rfl⟩
    · rw [if_neg hop] at h1
      exact absurd h1 (List.not_mem_nil o)
  · obtain ⟨fc, _, rfl⟩ := List.mem_map.mp h1
    cases hd : fc.done <;> simp [OutputItem.statusOf, OutputItem.isMessage, hd]

/-- Claim C4 (amended): on the wire, output_item.added events always
announce their item with status in_progress and output_item.done events
always carry status completed; but in the collected output that the
orchestrator persists, message (and reasoning) items always carry status
completed — even a partially streamed message on interruption — and a
function-call item carries completed iff it was marked done, else
incomplete. -/
theorem C4_main :
    (∀ (ctx : StreamCtx) (events : List ProviderEvent) (ending : StreamEnd),
      ∀ it ∈ (streamResponse ctx events ending).wire,
        addedInProgressB it = true ∧ doneCompletedB it = true)
    ∧ (∀ (st : StreamState) (mid : String), ∀ o ∈ collectOutputItems st mid,
        (o.isMessage = true → o.statusOf = "completed")
        ∧ (o.statusOf = "completed" ∨ o.statusOf = "incomplete"))
    ∧ (∀ (st : StreamState) (mid : String), ∀ fc ∈ st.functionCalls,
        OutputItem.functionCall fc.id fc.callId
          (if fc.done then "completed" else "incomplete") fc.name fc.arguments
        ∈ collectOutputItems st mid) := by
  refine ⟨?_, ?_, ?_⟩
  · intro ctx events ending it hit
    have h := streamResponse_wireEventOk ctx events ending it hit
    simp only [wireEventOkB, Bool.and_eq_true] at h
    exact ⟨h.1.2, h.2⟩
  · intro st mid o ho
    simp only [collectOutputItems] at ho
    by_cases ht : st.accumulatedThinking = ""
    · rw [if_pos ht] at ho
      exact base_status_ok ho
    · rw [if_neg ht] at ho
      rcases List.mem_cons.mp ho with rfl | ho
      · exact ⟨fun hx => by simp [OutputItem.isMessage] at hx, Or.inl rfl⟩
      · exact base_status_ok ho
  · intro st mid fc hfc
    simp only [collectOutputItems]
    have hmem : OutputItem.functionCall fc.id fc.callId
        (if fc.done then "completed" else "incomplete") fc.name fc.arguments
        ∈ (if st.textItemOpened then
            [OutputItem.message mid "completed" [st.accumulatedText]] else []) ++
          st.functionCalls.map (fun fc =>
            OutputItem.functionCall fc.id fc.callId
              (if fc.done then "completed" else "incomplete") fc.name fc.arguments) :=
      List.mem_append_right _ (List.mem_map_of_mem _ hfc)
    by_cases ht : st.accumulatedThinking = ""
    · rw [if_pos ht]
      exact hmem
    · rw [if_neg ht]
      exact List.mem_cons_of_mem _ hmem

/-- Witness for C4_main on concrete items and a concrete wire element. -/
theorem C4_main_witness :
    (addedInProgressB (WireItem.ev (inProgressEvent
        { store := false, responseId := "resp_1", messageId := "msg_1" })) = true
      ∧ doneCompletedB (WireItem.ev (inProgressEvent
        { store := false, responseId := "resp_1", messageId := "msg_1" })) = true)
    ∧ (((OutputItem.message "msg_1" "completed" ["Hello partial"]).isMessage = true →
        (OutputItem.message "msg_1" "completed" ["Hello partial"]).statusOf = "completed")
      ∧ ((OutputItem.message "msg_1" "completed" ["Hello partial"]).statusOf = "completed"
        ∨ (OutputItem.message "msg_1" "completed" ["Hello partial"]).statusOf = "incomplete"))
    ∧ OutputItem.functionCall "fc_0" "call_abc"
        (if false then "completed" else "incomplete") "get_weather" "{}"
      ∈ collectOutputItems
          { functionCalls := [{ id := "fc_0", callId := "call_abc", name := "get_weather",
                                arguments := "{}", outputIndex := 0, done := false }] }
          "msg_1" :=
  ⟨C4_main.1 { store := false, responseId := "resp_1", messageId := "msg_1" }
      [] .natural (WireItem.ev (inProgressEvent
        { store := false, responseId := "resp_1", messageId := "msg_1" })) (by decide),
   C4_main.2.1
      (runEvents { store := true, responseId := "resp_1", messageId := "msg_1" }
        [.textDelta "Hello partial"]) "msg_1"
      (OutputItem.message "msg_1" "completed" ["Hello partial"]) (by decide),
   C4_main.2.2
      { functionCalls := [{ id := "fc_0", callId := "call_abc", name := "get_weather",
                            arguments := "{}", outputIndex := 0, done := false }] }
      "msg_1"
      { id := "fc_0", callId := "call_abc", name := "get_weather",
        arguments := "{}", outputIndex := 0, done := false } (by decide)⟩

/-- Claim C9: whenever the text item has been opened and message_done
arrives, the orchestrator emits output_text.done carrying exactly the
accumulated text (then content_part.done, output_item.done and
response.completed) — including the empty string when nothing non-empty
was accumulated after the item was opened. -/
theorem C9_main (ctx : StreamCtx) (st : StreamState) (sr : String) (u : ProviderUsage)
    (h : st.textItemOpened = true) :
    (step ctx st (.messageDone sr u)).wire =
      st.wire ++
        [.ev { etype := "response.output_text.done", seq := some (st.sequence + 1),
               itemId := some ctx.messageId, outputIndex := st.messageOutputIndex,
               contentIndex := some 0, text := some st.accumulatedText },
         .ev { etype := "response.content_part.done", seq := some (st.sequence + 2),
               itemId := some ctx.messageId, outputIndex := st.messageOutputIndex,
               contentIndex := some 0, partText := some st.accumulatedText },
         .ev { etype := "response.output_item.done", seq := some (st.sequence + 3),
               outputIndex := st.messageOutputIndex,
               item := some (.message ctx.messageId "completed" [st.accumulatedText]) },
         .ev { etype := "response.completed", seq := some (st.sequence + 4),
               respId := some ctx.responseId, respStatus := some "completed",
               respOutput := some (collectOutputItems
                 { st with responseUsage := some (mkUsage u) } ctx.messageId),
               respUsage := some (mkUsage u) }] := by
  simp only [step, stepMessageDone, h, if_true, List.append_assoc, List.cons_append,
    List.nil_append]
  rfl

/-- Witness for C9_main: an opened item with empty accumulated text still
yields output_text.done with the empty string. -/
theorem C9_main_witness :
    (step { store := false, responseId := "resp_9", messageId := "msg_9" }
        { textItemOpened := true, messageOutputIndex := some 0 }
        (.messageDone "end_turn" { inputTokens := 1, outputTokens := 2 })).wire =
      [.ev { etype := "response.output_text.done", seq := some 1,
             itemId := some "msg_9", outputIndex := some 0,
             contentIndex := some 0, text := some "" },
       .ev { etype := "response.content_part.done", seq := some 2,
             itemId := some "msg_9", outputIndex := some 0,
             contentIndex := some 0, partText := some "" },
       .ev { etype := "response.output_item.done", seq := some 3,
             outputIndex := some 0,
             item := some (.message "msg_9" "completed" [""]) },
       .ev { etype := "response.completed", seq := some 4,
             respId := some "resp_9", respStatus := some "completed",
             respOutput := some [OutputItem.message "msg_9" "completed" [""]],
             respUsage := some { inputTokens := 1, outputTokens := 2,
                                 totalTokens := 3 } }] :=
  C9_main { store := false, responseId := "resp_9", messageId := "msg_9" }
    { textItemOpened := true, messageOutputIndex := some 0 }
    "end_turn" { inputTokens := 1, outputTokens := 2 } rfl

/-- Witness for C2_main on concrete pure-tool and text-then-tool streams. -/
theorem C2_main_witness :
    isMsgWireEvent WireItem.doneMark = false
    ∧ (streamResponse { store := false, responseId := "resp_1", messageId := "msg_1" }
        [.toolCallStart "call_abc" "get_weather" 0] .natural).wire.any
        (isAddedFcAt 0 "call_abc" "get_weather") = true
    ∧ (streamResponse { store := false, responseId := "resp_1", messageId := "msg_1" }
        [.textDelta "Hi", .toolCallStart "call_abc" "get_weather" 0] .natural).wire.any
        (isAddedMsgAt 0 "msg_1") = true
    ∧ (streamResponse { store := false, responseId := "resp_1", messageId := "msg_1" }
        [.textDelta "Hi", .toolCallStart "call_abc" "get_weather" 0] .natural).wire.any
        (isAddedFcAt 1 "call_abc" "get_weather") = true :=
  ⟨(C2_main { store := false, responseId := "resp_1", messageId := "msg_1" }
      [.toolCallStart "call_abc" "get_weather" 0] .natural).1 (by decide)
      WireItem.doneMark (by decide),
   (C2_main { store := false, responseId := "resp_1", messageId := "msg_1" }
      [.toolCallStart "call_abc" "get_weather" 0] .natural).2.1
      [] "call_abc" "get_weather" 0 [] rfl (by simp),
   ((C2_main { store := false, responseId := "resp_1", messageId := "msg_1" }
      [.textDelta "Hi", .toolCallStart "call_abc" "get_weather" 0] .natural).2.2.1
      [] "Hi" [] "call_abc" "get_weather" 0 [] rfl (by simp) (by simp)).1,
   ((C2_main { store := false, responseId := "resp_1", messageId := "msg_1" }
      [.textDelta "Hi", .toolCallStart "call_abc" "get_weather" 0] .natural).2.2.1
      [] "Hi" [] "call_abc" "get_weather" 0 [] rfl (by simp) (by simp)).2⟩
